import Mathlib

/-!
Shallow embedding of `src/exampleFunctions.js` from the jest-example
repository, together with theorems settling the specification claims.

The source defines two functions over an array of user records:

* `getTotalLikes(userArray, username)` finds the first user whose
  `username` field equals the argument and sums the `likes` fields of
  that user's blogs with `reduce`, starting from 0.  When no user
  matches, `Array.prototype.find` returns `undefined` and the access
  `user.blogs` throws an unhandled `TypeError`.

* `getMostPopularBlog(userArray, username)` finds the user the same way
  (same unhandled `TypeError` when absent), then reduces over the blogs
  with a tracker object initialized to `{index: undefined, likes: 0}`,
  replacing the tracker whenever a blog's likes strictly exceed the
  tracked likes, and finally returns `user.blogs[maxLikes.index]`.
  When the tracker index is still `undefined` (empty blog list, or all
  blogs at likes <= 0), that final lookup is an undefined index lookup
  and the function returns `undefined`.

The embedding makes both failure channels explicit: `JsResult.typeError`
models the unhandled `TypeError` crash, and an `Option Blog` result
models the possibly-`undefined` return value of `getMostPopularBlog`.
Likes are modelled as integers.
-/

namespace JestExample

/-- Outcome of running one of the JS functions: either a returned value,
or an unhandled `TypeError` raised by a property access on `undefined`. -/
inductive JsResult (α : Type) where
  | ok : α → JsResult α
  | typeError : JsResult α
deriving Repr, DecidableEq

/-- A blog record: `title`, `likes` and `content` fields, as in the test
fixtures of the repository. -/
structure Blog where
  title : String
  likes : Int
  content : String
deriving Repr, DecidableEq

/-- A user record: a `username` used as lookup key and an ordered list of
blogs. -/
structure User where
  username : String
  blogs : List Blog
deriving Repr, DecidableEq

/-- Embedding of `getTotalLikes`: find the first user whose username
equals the argument (a missing user makes `user.blogs` throw, modelled
as `typeError`), then reduce over the blogs summing `likes` from 0. -/
def getTotalLikes (userArray : List User) (username : String) :
    JsResult Int :=
  match userArray.find? (fun user => user.username == username) with
  | none => JsResult.typeError
  | some user =>
      JsResult.ok (user.blogs.foldl (fun total blog => total + blog.likes) 0)

/-- The tracker object of `getMostPopularBlog`: `index` is `undefined`
or an array index, `likes` the likes threshold for comparison. -/
structure MaxTracker where
  index : Option Nat
  likes : Int
deriving Repr, DecidableEq

/-- One step of the reduce in `getMostPopularBlog`: replace the tracker
by the current blog's index and likes when the blog's likes strictly
exceed the tracked likes, keep the tracker otherwise. -/
def maxStep (max : MaxTracker) (indexedBlog : Nat × Blog) : MaxTracker :=
  if indexedBlog.2.likes > max.likes then
    ⟨some indexedBlog.1, indexedBlog.2.likes⟩
  else
    max

/-- Embedding of `getMostPopularBlog`: find the first matching user
(`typeError` when absent), reduce the indexed blogs with `maxStep` from
the tracker `{index: undefined, likes: 0}`, then look the stored index
up in the blog array.  An `undefined` index (empty list, or no blog with
likes above 0) makes `user.blogs[maxLikes.index]` evaluate to
`undefined`, modelled as `none`. -/
def getMostPopularBlog (userArray : List User) (username : String) :
    JsResult (Option Blog) :=
  match userArray.find? (fun user => user.username == username) with
  | none => JsResult.typeError
  | some user =>
      let maxLikes := user.blogs.enum.foldl maxStep ⟨none, 0⟩
      JsResult.ok (maxLikes.index.bind (fun i => user.blogs.get? i))

/-- First blog of the `user1` fixture in `tests/exampleFunctions.test.js`. -/
def blog11 : Blog := ⟨"Entry 1", 130, "Blog 1 Content..."⟩

/-- Second blog of the `user1` fixture. -/
def blog12 : Blog := ⟨"Entry 2", 100, "Blog 2 Content..."⟩

/-- First blog of the `user2` fixture. -/
def blog21 : Blog := ⟨"Entry 1", 33, "Blog 1 Content..."⟩

/-- Second blog of the `user2` fixture. -/
def blog22 : Blog := ⟨"Entry 2", 80, "Blog 2 Content..."⟩

/-- The `user1` fixture from the test file. -/
def user1 : User := ⟨"user1", [blog11, blog12]⟩

/-- The `user2` fixture from the test file. -/
def user2 : User := ⟨"user2", [blog21, blog22]⟩

/-- The user collection fixture from `tests/exampleFunctions.test.js`. -/
def testUsers : List User := [user1, user2]

/-- A user with an empty blog list, for the empty-blogs edge case. -/
def emptyBlogsUser : User := ⟨"empty", []⟩

/-- A user whose blogs all have exactly 0 likes. -/
def zeroLikesUser : User := ⟨"zed", [⟨"Z1", 0, "c1"⟩, ⟨"Z2", 0, "c2"⟩]⟩

/-- The reduce of `getTotalLikes` computes the accumulator plus the sum
of the `likes` fields. -/
lemma foldl_add_likes (blogs : List Blog) (a : Int) :
    blogs.foldl (fun total blog => total + blog.likes) a
      = a + (blogs.map Blog.likes).sum := by
  induction blogs generalizing a with
  | nil => simp
  | cons b bs ih => simp [ih, add_assoc]

/-- Characterization of the reduce in `getMostPopularBlog`: starting
from tracker `t` on the blogs indexed from `n`, either no blog strictly
beats `t.likes` and the tracker is unchanged, or the final tracker holds
the index (offset by `n`) and likes of the first blog attaining the
maximum likes value of the list, that value strictly above `t.likes`. -/
lemma foldl_maxStep_spec (blogs : List Blog) (n : Nat) (t : MaxTracker) :
    ((List.enumFrom n blogs).foldl maxStep t = t ∧
      ∀ b ∈ blogs, b.likes ≤ t.likes) ∨
    (∃ i b, blogs.get? i = some b ∧
      (List.enumFrom n blogs).foldl maxStep t = ⟨some (n + i), b.likes⟩ ∧
      t.likes < b.likes ∧
      (∀ c ∈ blogs, c.likes ≤ b.likes) ∧
      (∀ j, j < i → ∀ c, blogs.get? j = some c → c.likes < b.likes)) := by
  induction blogs generalizing n t with
  | nil =>
      left
      exact ⟨rfl, by simp⟩
  | cons b bs ih =>
      by_cases hgt : b.likes > t.likes
      · have hstep : (List.enumFrom n (b :: bs)).foldl maxStep t
            = (List.enumFrom (n + 1) bs).foldl maxStep ⟨some n, b.likes⟩ := by
          simp [maxStep, hgt]
        rcases ih (n + 1) ⟨some n, b.likes⟩ with
          ⟨heq, hall⟩ | ⟨i, c, hget, heq, hlt, hall, hbef⟩
        · right
          refine ⟨0, b, rfl, ?_, hgt, ?_, ?_⟩
          · rw [hstep, heq]; simp
          · intro c hc
            rcases List.mem_cons.mp hc with hcb | hcs
            · subst hcb; exact le_refl _
            · exact hall c hcs
          · intro j hj
            omega
        · right
          refine ⟨i + 1, c, hget, ?_, lt_trans hgt hlt, ?_, ?_⟩
          · rw [hstep, heq]
            have harith : n + 1 + i = n + (i + 1) := by omega
            rw [harith]
          · intro d hd
            rcases List.mem_cons.mp hd with hdb | hds
            · subst hdb; exact le_of_lt hlt
            · exact hall d hds
          · intro j hj d hd
            cases j with
            | zero =>
                have hdb : b = d := by simpa using hd
                subst hdb; exact hlt
            | succ k =>
                exact hbef k (by omega) d (by simpa using hd)
      · have hle : b.likes ≤ t.likes := not_lt.mp hgt
        have hstep : (List.enumFrom n (b :: bs)).foldl maxStep t
            = (List.enumFrom (n + 1) bs).foldl maxStep t := by
          simp [maxStep, hgt]
        rcases ih (n + 1) t with
          ⟨heq, hall⟩ | ⟨i, c, hget, heq, hlt, hall, hbef⟩
        · left
          refine ⟨by rw [hstep, heq], ?_⟩
          intro d hd
          rcases List.mem_cons.mp hd with hdb | hds
          · subst hdb; exact hle
          · exact hall d hds
        · right
          refine ⟨i + 1, c, hget, ?_, hlt, ?_, ?_⟩
          · rw [hstep, heq]
            have harith : n + 1 + i = n + (i + 1) := by omega
            rw [harith]
          · intro d hd
            rcases List.mem_cons.mp hd with hdb | hds
            · subst hdb; exact le_of_lt (lt_of_le_of_lt hle hlt)
            · exact hall d hds
          · intro j hj d hd
            cases j with
            | zero =>
                have hdb : b = d := by simpa using hd
                subst hdb; exact lt_of_le_of_lt hle hlt
            | succ k =>
                exact hbef k (by omega) d (by simpa using hd)

/-- Case analysis for `getMostPopularBlog` on a found user: either no
blog has positive likes and the result is the `undefined` value `none`,
or the result is the first blog attaining the (positive) maximum likes
value of the user's blog list. -/
lemma getMostPopularBlog_cases (users : List User) (username : String)
    (user : User)
    (h : users.find? (fun u => u.username == username) = some user) :
    (getMostPopularBlog users username = JsResult.ok none ∧
      ∀ b ∈ user.blogs, b.likes ≤ 0) ∨
    (∃ i b, user.blogs.get? i = some b ∧
      getMostPopularBlog users username = JsResult.ok (some b) ∧
      0 < b.likes ∧
      (∀ c ∈ user.blogs, c.likes ≤ b.likes) ∧
      (∀ j, j < i → ∀ c, user.blogs.get? j = some c → c.likes < b.likes)) := by
  have henum : user.blogs.enum = List.enumFrom 0 user.blogs := rfl
  rcases foldl_maxStep_spec user.blogs 0 ⟨none, 0⟩ with
    ⟨heq, hall⟩ | ⟨i, b, hget, heq, hlt, hall, hbef⟩
  · left
    refine ⟨?_, hall⟩
    simp [getMostPopularBlog, h, henum, heq]
  · right
    refine ⟨i, b, hget, ?_, hlt, hall, hbef⟩
    simp only [getMostPopularBlog, h, henum, heq, Nat.zero_add,
      Option.some_bind, JsResult.ok.injEq]
    exact hget

/-- A blog strictly above every other blog of a found user is the blog
returned by `getMostPopularBlog`, provided its likes are positive. -/
lemma winner_of_unique_max (users : List User) (username : String)
    (user : User) (b : Blog)
    (h : users.find? (fun u => u.username == username) = some user)
    (hb : b ∈ user.blogs) (hpos : 0 < b.likes)
    (hmax : ∀ c ∈ user.blogs, c ≠ b → c.likes < b.likes) :
    getMostPopularBlog users username = JsResult.ok (some b) := by
  rcases getMostPopularBlog_cases users username user h with
    ⟨_, hall⟩ | ⟨i, w, hget, hres, hwpos, hwmax, _⟩
  · exact absurd (hall b hb) (not_le.mpr hpos)
  · have hw : w ∈ user.blogs := List.get?_mem hget
    by_cases hwb : w = b
    · subst hwb; exact hres
    · exact absurd (hwmax b hb) (not_le.mpr (hmax w hw hwb))

/-- Claim C1: for every user collection and username matching some user,
`getTotalLikes` returns the sum of the `likes` fields over the first
matching user's blogs, with 0 as the identity element, so an empty blog
list yields 0. -/
theorem getTotalLikes_sums_first_match (users : List User)
    (username : String) (user : User)
    (h : users.find? (fun u => u.username == username) = some user) :
    getTotalLikes users username
      = JsResult.ok ((user.blogs.map Blog.likes).sum) ∧
    (user.blogs = [] → getTotalLikes users username = JsResult.ok 0) := by
  have hmain : getTotalLikes users username
      = JsResult.ok ((user.blogs.map Blog.likes).sum) := by
    simp only [getTotalLikes, h, foldl_add_likes, zero_add]
  exact ⟨hmain, fun he => by rw [hmain, he]; simp⟩

/-- Claim C1 witness: on the test fixture, user1's blogs have likes
[130, 100] and the total is 230. -/
theorem getTotalLikes_sums_first_match_witness :
    getTotalLikes testUsers "user1" = JsResult.ok 230 :=
  ((getTotalLikes_sums_first_match testUsers "user1" user1
    (by decide)).1).trans (by decide)

/-- Claim C2: for a found user with at least one blog of positive likes,
`getMostPopularBlog` returns the whole blog record at some index `i`
whose likes value is greatest over the blog list, and every blog at an
earlier index has strictly smaller likes, so ties keep the earliest
blog (strict comparison). -/
theorem getMostPopularBlog_first_strict_max (users : List User)
    (username : String) (user : User)
    (h : users.find? (fun u => u.username == username) = some user)
    (hpos : ∃ b ∈ user.blogs, 0 < b.likes) :
    ∃ i blog, user.blogs.get? i = some blog ∧
      getMostPopularBlog users username = JsResult.ok (some blog) ∧
      (∀ c ∈ user.blogs, c.likes ≤ blog.likes) ∧
      (∀ j, j < i → ∀ c, user.blogs.get? j = some c →
        c.likes < blog.likes) := by
  rcases getMostPopularBlog_cases users username user h with
    ⟨_, hall⟩ | ⟨i, b, hget, hres, _, hmax, hbef⟩
  · rcases hpos with ⟨b, hb, hbpos⟩
    exact absurd (hall b hb) (not_le.mpr hbpos)
  · exact ⟨i, b, hget, hres, hmax, hbef⟩

/-- Claim C2 witness: on the test fixture, user1 has a blog of positive
likes, and the returned blog is the one with likes 130 ("Entry 1"). -/
theorem getMostPopularBlog_first_strict_max_witness :
    (∃ b ∈ user1.blogs, 0 < b.likes) ∧
    (∃ i blog, user1.blogs.get? i = some blog ∧
      getMostPopularBlog testUsers "user1" = JsResult.ok (some blog) ∧
      (∀ c ∈ user1.blogs, c.likes ≤ blog.likes) ∧
      (∀ j, j < i → ∀ c, user1.blogs.get? j = some c →
        c.likes < blog.likes)) :=
  ⟨⟨blog11, by decide, by decide⟩,
    getMostPopularBlog_first_strict_max testUsers "user1" user1 (by decide)
      ⟨blog11, by decide, by decide⟩⟩

/-- Claim C3: on a username matching no user, both functions hit an
unhandled TypeError (reading `.blogs` of `undefined`), modelled as
`typeError`, rather than the explicit UserNotFound error the
specification prescribes. -/
theorem userNotFound_crashes :
    getTotalLikes testUsers "user3" = JsResult.typeError ∧
    getMostPopularBlog testUsers "user3" = JsResult.typeError := by
  decide

/-- Claim C4: on a found user with an empty blog list, the tracker index
stays `undefined`, `getMostPopularBlog` performs the undefined index
lookup `user.blogs[undefined]` and returns `undefined` (modelled as
`ok none`), not an explicit NoBlogsForUser error. -/
theorem emptyBlogs_undefined_lookup :
    getMostPopularBlog [emptyBlogsUser] "empty" = JsResult.ok none := by
  decide

/-- Claim C5: for a found user all of whose blogs have likes at most 0,
`getMostPopularBlog` selects no blog: the tracker's likes threshold
starts at 0 and is never strictly exceeded, so a blog with exactly 0
likes never wins. -/
theorem getMostPopularBlog_zero_floor (users : List User)
    (username : String) (user : User)
    (h : users.find? (fun u => u.username == username) = some user)
    (hnp : ∀ b ∈ user.blogs, b.likes ≤ 0) :
    getMostPopularBlog users username = JsResult.ok none := by
  rcases getMostPopularBlog_cases users username user h with
    ⟨hres, _⟩ | ⟨i, b, hget, _, hbpos, _, _⟩
  · exact hres
  · exact absurd hbpos (not_lt.mpr (hnp b (List.get?_mem hget)))

/-- Claim C5 witness: a user with two blogs of exactly 0 likes gets no
selected blog. -/
theorem getMostPopularBlog_zero_floor_witness :
    getMostPopularBlog [zeroLikesUser] "zed" = JsResult.ok none :=
  getMostPopularBlog_zero_floor [zeroLikesUser] "zed" zeroLikesUser
    (by decide) (by decide)

/-- Claim C6: first, when the matched user's blog list has a unique
strict maximum with positive likes, `getMostPopularBlog` returns that
same blog on any collection whose matched user holds a permutation of
the blog list; second, when several blogs share the maximum value, the
returned blog is the first one of the original sequence (every earlier
blog is strictly smaller). -/
theorem getMostPopularBlog_perm_invariant :
    (∀ (users usersP : List User) (username : String) (user userP : User)
        (b : Blog),
      users.find? (fun u => u.username == username) = some user →
      usersP.find? (fun u => u.username == username) = some userP →
      userP.blogs.Perm user.blogs →
      b ∈ user.blogs → 0 < b.likes →
      (∀ c ∈ user.blogs, c ≠ b → c.likes < b.likes) →
      getMostPopularBlog usersP username = JsResult.ok (some b) ∧
      getMostPopularBlog users username = JsResult.ok (some b)) ∧
    (∀ (users : List User) (username : String) (user : User) (i : Nat)
        (b : Blog),
      users.find? (fun u => u.username == username) = some user →
      user.blogs.get? i = some b → 0 < b.likes →
      (∀ c ∈ user.blogs, c.likes ≤ b.likes) →
      (∀ j, j < i → ∀ c, user.blogs.get? j = some c →
        c.likes < b.likes) →
      getMostPopularBlog users username = JsResult.ok (some b)) := by
  constructor
  · intro users usersP username user userP b h hP hperm hb hpos hmax
    refine ⟨?_, winner_of_unique_max users username user b h hb hpos hmax⟩
    refine winner_of_unique_max usersP username userP b hP
      (hperm.mem_iff.mpr hb) hpos ?_
    intro c hc
    exact hmax c (hperm.mem_iff.mp hc)
  · intro users username user i b h hget hpos hmaxall hbef
    rcases getMostPopularBlog_cases users username user h with
      ⟨_, hall⟩ | ⟨j, w, hgetw, hres, _, hwmax, hbefw⟩
    · exact absurd (hall b (List.get?_mem hget)) (not_le.mpr hpos)
    · rcases Nat.lt_trichotomy j i with hji | hji | hji
      · exact absurd (hwmax b (List.get?_mem hget))
          (not_le.mpr (hbef j hji w hgetw))
      · subst hji
        rw [hget] at hgetw
        cases hgetw
        exact hres
      · exact absurd (hmaxall w (List.get?_mem hgetw))
          (not_le.mpr (hbefw i hji b hget))

/-- Claim C6 witness: reversing user1's two blogs (likes 100 and 130,
unique strict maximum 130) leaves the result the blog with likes 130,
the same blog that the original order returns. -/
theorem getMostPopularBlog_perm_invariant_witness :
    getMostPopularBlog [⟨"user1", [blog12, blog11]⟩] "user1"
      = JsResult.ok (some blog11) ∧
    getMostPopularBlog testUsers "user1" = JsResult.ok (some blog11) :=
  getMostPopularBlog_perm_invariant.1 testUsers
    [⟨"user1", [blog12, blog11]⟩] "user1" user1
    ⟨"user1", [blog12, blog11]⟩ blog11 (by decide) (by decide)
    (List.Perm.swap blog11 blog12 []) (by decide) (by decide) (by decide)

/-- Claim C7: `getTotalLikes` is invariant under permutation of the
matched user's blog sequence: two collections whose first matching
users hold permuted blog lists give the same total. -/
theorem getTotalLikes_perm_invariant (users usersP : List User)
    (username : String) (user userP : User)
    (h : users.find? (fun u => u.username == username) = some user)
    (hP : usersP.find? (fun u => u.username == username) = some userP)
    (hperm : userP.blogs.Perm user.blogs) :
    getTotalLikes usersP username = getTotalLikes users username := by
  simp only [getTotalLikes, h, hP, foldl_add_likes, zero_add]
  rw [(hperm.map Blog.likes).sum_eq]

/-- Claim C7 witness: reversing user1's blogs leaves the total at 230. -/
theorem getTotalLikes_perm_invariant_witness :
    getTotalLikes [⟨"user1", [blog12, blog11]⟩] "user1"
      = getTotalLikes testUsers "user1" :=
  getTotalLikes_perm_invariant testUsers [⟨"user1", [blog12, blog11]⟩]
    "user1" user1 ⟨"user1", [blog12, blog11]⟩ (by decide) (by decide)
    (List.Perm.swap blog11 blog12 [])

/-- Claim C8: when the first match for the username is `user`, appending
further users (in particular later duplicates of the same username)
changes neither result, and each result is the one computed from the
first matching user alone. -/
theorem first_match_wins (users rest : List User) (username : String)
    (user : User)
    (h : users.find? (fun u => u.username == username) = some user) :
    getTotalLikes (users ++ rest) username
      = getTotalLikes users username ∧
    getMostPopularBlog (users ++ rest) username
      = getMostPopularBlog users username ∧
    getTotalLikes users username = getTotalLikes [user] username ∧
    getMostPopularBlog users username
      = getMostPopularBlog [user] username := by
  have happ : (users ++ rest).find? (fun u => u.username == username)
      = some user := by
    simp [List.find?_append, h]
  have hpu : (fun u => u.username == username) user = true :=
    (List.find?_eq_some.mp h).1
  have hsingle : [user].find? (fun u => u.username == username)
      = some user := by
    simp [List.find?, hpu]
  refine ⟨?_, ?_, ?_, ?_⟩ <;>
    simp only [getTotalLikes, getMostPopularBlog, h, happ, hsingle]

/-- Claim C8 witness: with a later duplicate of username "user1" whose
blogs differ, both functions return the first user1's results (total
230, top blog "Entry 1" with 130 likes). -/
theorem first_match_wins_witness :
    getTotalLikes ([user1] ++ [⟨"user1", [blog22]⟩]) "user1"
      = getTotalLikes [user1] "user1" ∧
    getMostPopularBlog ([user1] ++ [⟨"user1", [blog22]⟩]) "user1"
      = getMostPopularBlog [user1] "user1" :=
  ⟨(first_match_wins [user1] [⟨"user1", [blog22]⟩] "user1" user1
      (by decide)).1,
    (first_match_wins [user1] [⟨"user1", [blog22]⟩] "user1" user1
      (by decide)).2.1⟩

/-- Claim C9: whenever `getMostPopularBlog` returns a blog record for a
found user, that blog is an element of the user's blog list, its likes
are strictly positive, and its likes value is the maximum over the
list. -/
theorem getMostPopularBlog_sound (users : List User) (username : String)
    (user : User) (blog : Blog)
    (h : users.find? (fun u => u.username == username) = some user)
    (hres : getMostPopularBlog users username
      = JsResult.ok (some blog)) :
    blog ∈ user.blogs ∧ 0 < blog.likes ∧
      ∀ c ∈ user.blogs, c.likes ≤ blog.likes := by
  rcases getMostPopularBlog_cases users username user h with
    ⟨hnone, _⟩ | ⟨i, b, hget, hres2, hbpos, hmax, _⟩
  · rw [hres] at hnone
    simp at hnone
  · rw [hres] at hres2
    have hb : blog = b := by simpa using hres2
    subst hb
    exact ⟨List.get?_mem hget, hbpos, hmax⟩

/-- Claim C9 witness: the blog returned for user1 (likes 130) is in
user1's blog list, has positive likes, and is maximal. -/
theorem getMostPopularBlog_sound_witness :
    blog11 ∈ user1.blogs ∧ 0 < blog11.likes ∧
      ∀ c ∈ user1.blogs, c.likes ≤ blog11.likes :=
  getMostPopularBlog_sound testUsers "user1" user1 blog11 (by decide)
    (by decide)

/-- Claim C10: both functions are deterministic pure computations: two
calls with identical collection and username arguments give identical
results.  The embedding is a pure function of its arguments, so no
record of the input collection is mutated by construction. -/
theorem pure_deterministic (usersA usersB : List User)
    (nameA nameB : String) (hu : usersA = usersB) (hn : nameA = nameB) :
    getTotalLikes usersA nameA = getTotalLikes usersB nameB ∧
    getMostPopularBlog usersA nameA = getMostPopularBlog usersB nameB := by
  subst hu
  subst hn
  exact ⟨rfl, rfl⟩

/-- Claim C10 witness: two calls on the test fixture agree. -/
theorem pure_deterministic_witness :
    getTotalLikes testUsers "user1" = getTotalLikes testUsers "user1" ∧
    getMostPopularBlog testUsers "user1"
      = getMostPopularBlog testUsers "user1" :=
  pure_deterministic testUsers testUsers "user1" "user1" rfl rfl

end JestExample
